import Mathlib

/-!
Verification of the OpenSTA fragment: the liberty leakage-power attribute
holder (`src/liberty/LeakagePower.cc`) and the structural timing-constraint
verifier `CheckTiming` (declared in `src/search/CheckTiming.hh`; its
implementation file is not part of the examined sources, so its checks are
modelled from the specification, as marked on each definition).

Machine floats carry no arithmetic here (the power value is only stored and
read back), so the scalar power value is embedded as a rational number.
Pins, ports, clocks and cells are identified by natural numbers.
-/

namespace Sta

/-! ## Liberty leakage-power data (`src/liberty/LeakagePower.cc`) -/

/-- A Boolean function expression tree (the liberty `when` guard).
Leaves are port references; inner nodes own their sub-expressions. -/
inductive FuncExpr where
  | port : Nat → FuncExpr
  | notE : FuncExpr → FuncExpr
  | andE : FuncExpr → FuncExpr → FuncExpr
  | orE : FuncExpr → FuncExpr → FuncExpr
deriving DecidableEq

/-- Modelled from the spec: `FuncExpr::deleteSubexprs` (FuncExpr.cc is not
among the examined sources) releases the owned sub-expression tree of the
expression.  The embedding returns the list of released tree nodes. -/
def FuncExpr.deleteSubexprs : FuncExpr → List FuncExpr
  | .port p => [.port p]
  | .notE a => .notE a :: a.deleteSubexprs
  | .andE a b => .andE a b :: (a.deleteSubexprs ++ b.deleteSubexprs)
  | .orE a b => .orE a b :: (a.deleteSubexprs ++ b.deleteSubexprs)

/-- `LeakagePowerAttrs`: the attribute record filled by the library parser.
`when_` is the optional guard expression (a null pointer is `none`),
`power_` the scalar leakage value. -/
structure LeakagePowerAttrs where
  when_ : Option FuncExpr
  power_ : Rat
deriving DecidableEq

/-- `LeakagePowerAttrs::LeakagePowerAttrs()`: null guard, power 0.0. -/
def LeakagePowerAttrs.init : LeakagePowerAttrs :=
  { when_ := none, power_ := 0 }

/-- `LeakagePowerAttrs::setWhen(FuncExpr *when)`: plain assignment of the
guard field.  The second component is the list of expressions the call
releases; the body contains no release, so it is empty. -/
def LeakagePowerAttrs.setWhen (a : LeakagePowerAttrs) (w : Option FuncExpr) :
    LeakagePowerAttrs × List FuncExpr :=
  ({ a with when_ := w }, [])

/-- `LeakagePowerAttrs::setPower(float power)`: plain assignment of the
power field; releases nothing. -/
def LeakagePowerAttrs.setPower (a : LeakagePowerAttrs) (p : Rat) :
    LeakagePowerAttrs × List FuncExpr :=
  ({ a with power_ := p }, [])

/-- `LeakagePower`: per-cell leakage power record.  The owning cell is
referenced by its identifier. -/
structure LeakagePower where
  cell_ : Nat
  when_ : Option FuncExpr
  power_ : Rat
deriving DecidableEq

/-- `LibertyCell` as far as this fragment sees it: an identifier and the
sequence of leakage-power records registered with the cell. -/
structure LibertyCell where
  id : Nat
  leakage_powers_ : List LeakagePower
deriving DecidableEq

/-- Modelled from the spec: `LibertyCell::addLeakagePower` (LibertyCell code
is not among the examined sources) registers a leakage-power record with
its owning cell, appending it to the cell-owned sequence. -/
def LibertyCell.addLeakagePower (c : LibertyCell) (lp : LeakagePower) :
    LibertyCell :=
  { c with leakage_powers_ := c.leakage_powers_ ++ [lp] }

/-- `LeakagePower::LeakagePower(LibertyCell *cell, LeakagePowerAttrs *attrs)`:
initializes the fields from the attribute record, then calls
`cell->addLeakagePower(this)`.  Returns the new record and the updated
cell. -/
def LeakagePower.construct (cell : LibertyCell) (attrs : LeakagePowerAttrs) :
    LeakagePower × LibertyCell :=
  let lp : LeakagePower :=
    { cell_ := cell.id, when_ := attrs.when_, power_ := attrs.power_ }
  (lp, cell.addLeakagePower lp)

/-- `LeakagePower::~LeakagePower()`: `if (when_) when_->deleteSubexprs();`.
Returns the expressions released by destruction. -/
def LeakagePower.destruct (lp : LeakagePower) : List FuncExpr :=
  match lp.when_ with
  | none => []
  | some w => w.deleteSubexprs

/-! ## The constraint verifier (`src/search/CheckTiming.hh`)

Only the class declaration of `CheckTiming` is among the examined sources;
the bodies of `check`, the individual check routines and the helpers are
modelled from the specification (sections 2–4 and 8 of the design
document), as recorded on each definition below. -/

/-- A register (sequential element): its clock pin and its data-input pin. -/
structure Reg where
  clkPin : Nat
  dataPin : Nat
deriving DecidableEq

/-- A timing arc of the circuit graph.  `breaksState` classifies the edge as
sequential state-breaking (clock-to-output, data-to-register-output); the
combinational subgraph of the loop check excludes such edges. -/
structure TEdge where
  src : Nat
  dst : Nat
  breaksState : Bool
deriving DecidableEq

/-- A generated clock: its identifier, declared source pin and master
clock. -/
structure GenClk where
  id : Nat
  srcPin : Nat
  master : Nat
deriving DecidableEq

/-- Modelled from the spec: the external collaborators of the verifier —
the Circuit Graph (pins, roles, timing arcs with their sequential/
combinational classification, clocked-arrival tags computed by the delay
propagation engine) and the Constraint Store (declared clocks, generated
clocks, I/O delay assertions, required-time annotations, max-delay
exceptions).  Both are read-only for the verifier. -/
structure Circuit where
  /-- every pin and port of the circuit graph -/
  pins : List Nat
  /-- primary input ports -/
  inputs : List Nat
  /-- primary output ports -/
  outputs : List Nat
  /-- sequential elements -/
  regs : List Reg
  /-- timing arcs -/
  edges : List TEdge
  /-- input ports covered by an explicit input-delay assertion -/
  inputDelays : List Nat
  /-- output ports covered by an output-delay assertion -/
  outputDelays : List Nat
  /-- (pin, clock) pairs: the pin carries a clocked-arrival tag tied to the clock -/
  clkArrivals : List (Nat × Nat)
  /-- pins that are clock sources -/
  clockSrcs : List Nat
  /-- pins carrying a clocked arrival tag propagated from an internally generated default -/
  defaultClkArrivals : List Nat
  /-- endpoints with a required-time annotation reachable via a declared clock -/
  clkRequireds : List Nat
  /-- pins covered by a max-delay exception -/
  maxDelayPins : List Nat
  /-- generated clocks of the constraint store -/
  genClks : List GenClk

/-- `CheckError` (`typedef StringSeq CheckError`): a header message followed
by one line per offending object. -/
abbrev CheckError := List String

/-- `CheckErrorSeq` (`typedef Vector<CheckError*> CheckErrorSeq`). -/
abbrev CheckErrorSeq := List CheckError

/-- The rendered name of a pin. -/
def pinName (p : Nat) : String :=
  toString p

/-- A message template with a count placeholder and a plural-sensitive
phrase: the singular and plural renderings of the phrase. -/
structure MsgTemplate where
  singular : String
  plural : String
deriving DecidableEq

/-- Modelled from the spec: `CheckTiming::errorMsgSubst` renders a template
with the literal count and chooses the singular or plural form of the
plural-sensitive phrase by whether the count equals one; a pure function of
template and count. -/
def errorMsgSubst (msg : MsgTemplate) (count : Nat) : String :=
  toString count ++ " " ++ (if count = 1 then msg.singular else msg.plural)

/-- The error group a pin-listing check contributes: none when the
offending set is empty, otherwise the substituted header followed by one
line per offending pin. -/
def mkPinErrors (msg : MsgTemplate) (pins : List Nat) : Option CheckError :=
  if pins = [] then none
  else some (errorMsgSubst msg pins.length :: pins.map pinName)

/-- The error group a clock-listing check contributes. -/
def mkClkErrors (msg : MsgTemplate) (clks : List Nat) : Option CheckError :=
  if clks = [] then none
  else some (errorMsgSubst msg clks.length :: clks.map toString)

/-- Whether pin `p` has at least one downstream timing receiver. -/
def hasReceivers (c : Circuit) (p : Nat) : Bool :=
  c.edges.any (fun e => e.src == p)

/-- Whether pin `p` is reachable by at least one timing path (has driving
logic). -/
def hasDrivers (c : Circuit) (p : Nat) : Bool :=
  c.edges.any (fun e => e.dst == p)

/-- Modelled from the spec (4.2): the ports flagged by the input-delay
check — primary input ports with no explicit input-delay assertion, unless
the port has no downstream timing receivers, is itself a clock source, or
already carries a default-propagated clocked arrival tag. -/
def inputDelayViolations (c : Circuit) : List Nat :=
  c.inputs.filter (fun p =>
    p ∉ c.inputDelays ∧ hasReceivers c p = true ∧
      p ∉ c.clockSrcs ∧ p ∉ c.defaultClkArrivals)

/-- Modelled from the spec (4.3): primary output ports lacking an
output-delay assertion, restricted to ports reachable by at least one
timing path. -/
def outputDelayViolations (c : Circuit) : List Nat :=
  c.outputs.filter (fun p => p ∉ c.outputDelays ∧ hasDrivers c p = true)

/-- The distinct declared clocks whose clocked-arrival tags reach pin `p`. -/
def clksReaching (c : Circuit) (p : Nat) : List Nat :=
  ((c.clkArrivals.filter (fun a => a.1 == p)).map (fun a => a.2)).dedup

/-- Modelled from the spec (4.4): registers whose clock pin receives
clocked-arrival tags from more than one distinct declared clock. -/
def regMultipleClksViolations (c : Circuit) : List Reg :=
  c.regs.filter (fun r => 2 ≤ (clksReaching c r.clkPin).length)

/-- Modelled from the spec (4.4): registers whose clock pin receives no
clocked-arrival tag at all. -/
def regNoClksViolations (c : Circuit) : List Reg :=
  c.regs.filter (fun r => (clksReaching c r.clkPin).length = 0)

/-- Endpoints: register data-input pins and primary output ports. -/
def endpoints (c : Circuit) : List Nat :=
  c.regs.map (fun r => r.dataPin) ++ c.outputs

/-- Modelled from the spec (4.5, setup side): endpoints with no
required-time annotation reachable via any declared clock, excluding
endpoints covered by a max-delay exception. -/
def setupUnconstrained (c : Circuit) : List Nat :=
  (endpoints c).filter (fun p => p ∉ c.clkRequireds ∧ p ∉ c.maxDelayPins)

/-- Modelled from the spec (4.5): the duplicate-free union of the setup-side
unconstrained endpoints and the outputs missing an output-delay
assertion. -/
def unconstrainedEndpoints (c : Circuit) : List Nat :=
  (setupUnconstrained c ++ outputDelayViolations c).dedup

/-- Modelled from the spec (4.7): generated clocks whose declared source pin
is not reachable from their master clock with a clocked arrival tag. -/
def genClkViolations (c : Circuit) : List Nat :=
  (c.genClks.filter (fun g => (g.srcPin, g.master) ∉ c.clkArrivals)).map
    (fun g => g.id)

/-! ### Combinational-loop check (spec 4.6) -/

/-- The distinct combinational successors of a vertex: destinations of
timing arcs from `v` that do not cross a sequential state boundary. -/
def combSuccs (c : Circuit) (v : Nat) : List Nat :=
  ((c.edges.filter (fun e => e.breaksState = false ∧ e.src == v)).map
    (fun e => e.dst)).dedup

/-- Modelled from the spec (4.6): depth-first enumeration of the simple
combinational cycles through `v0` whose minimal vertex is `v0`.  `path` is
the vertex stack in reverse (current vertex first, `v0` last); closing an
arc back to `v0` yields the cycle in traversal order.  Restricting the
intermediate vertices to be larger than `v0` selects exactly one
representative rotation per distinct physical cycle.  `fuel` bounds the
path length by the vertex count. -/
def cyclePaths (c : Circuit) (v0 : Nat) :
    Nat → Nat → List Nat → List (List Nat)
  | 0, _, _ => []
  | fuel + 1, cur, path =>
    (combSuccs c cur).flatMap (fun w =>
      if w = v0 then [path.reverse]
      else if w ≤ v0 ∨ w ∈ path then []
      else cyclePaths c v0 fuel w (w :: path))

/-- The representative cycles whose minimal vertex is `v0`. -/
def cyclesMin (c : Circuit) (v0 : Nat) : List (List Nat) :=
  cyclePaths c v0 c.pins.length v0 [v0]

/-- Modelled from the spec (4.6): the cycles reported by the loop check when
the vertices are iterated in order `order` — for each vertex in iteration
order, the representative cycles canonically rooted at it. -/
def checkLoopsReport (c : Circuit) (order : List Nat) : List (List Nat) :=
  order.flatMap (cyclesMin c)

/-- One representative error per distinct cycle, naming the pins on the
cycle in traversal order. -/
def mkLoopError (cyc : List Nat) : CheckError :=
  "combinational loop" :: cyc.map pinName

/-- The error groups contributed by the loop check, iterating the vertices
in the circuit pin order. -/
def loopErrors (c : Circuit) : CheckErrorSeq :=
  (checkLoopsReport c c.pins).map mkLoopError

/-! ### The verifier state and the top-level check -/

/-- Header template of the input-delay check. -/
def noInputDelayMsg : MsgTemplate :=
  { singular := "input port has no input delay specified",
    plural := "input ports have no input delay specified" }

/-- Header template of the output-delay check. -/
def noOutputDelayMsg : MsgTemplate :=
  { singular := "output port has no output delay specified",
    plural := "output ports have no output delay specified" }

/-- Header template of the register-multiple-clocks check. -/
def regMultipleClksMsg : MsgTemplate :=
  { singular := "register clock pin is clocked by multiple clocks",
    plural := "register clock pins are clocked by multiple clocks" }

/-- Header template of the register-no-clocks check. -/
def regNoClksMsg : MsgTemplate :=
  { singular := "register clock pin is not connected to a clock",
    plural := "register clock pins are not connected to a clock" }

/-- Header template of the unconstrained-endpoints check. -/
def unconstrainedMsg : MsgTemplate :=
  { singular := "pin is unconstrained",
    plural := "pins are unconstrained" }

/-- Header template of the generated-clocks check. -/
def genClksMsg : MsgTemplate :=
  { singular := "generated clock is not connected to its master clock",
    plural := "generated clocks are not connected to their master clocks" }

/-- The seven Boolean toggles of `CheckTiming::check`. -/
structure Toggles where
  no_input_delay : Bool
  no_output_delay : Bool
  reg_multiple_clks : Bool
  reg_no_clks : Bool
  unconstrained_endpoints : Bool
  loops : Bool
  generated_clks : Bool
deriving DecidableEq

/-- The verifier instance: its accumulated error sequence `errors_`. -/
structure CheckTiming where
  errors_ : CheckErrorSeq
deriving DecidableEq

/-- `CheckTiming::clear`: releases and empties the accumulated errors. -/
def CheckTiming.clear (_s : CheckTiming) : CheckTiming :=
  { errors_ := [] }

/-- Appending an optional error group to the verifier state. -/
def CheckTiming.pushGroup (s : CheckTiming) (g : Option CheckError) :
    CheckTiming :=
  { errors_ := s.errors_ ++ g.toList }

/-- Modelled from the spec: `CheckTiming::checkNoInputDelay` pushes the
input-delay error group. -/
def CheckTiming.checkNoInputDelay (s : CheckTiming) (c : Circuit) :
    CheckTiming :=
  s.pushGroup (mkPinErrors noInputDelayMsg (inputDelayViolations c))

/-- Modelled from the spec: `CheckTiming::checkNoOutputDelay` pushes the
output-delay error group. -/
def CheckTiming.checkNoOutputDelay (s : CheckTiming) (c : Circuit) :
    CheckTiming :=
  s.pushGroup (mkPinErrors noOutputDelayMsg (outputDelayViolations c))

/-- Modelled from the spec: `CheckTiming::checkRegClks` runs the two
individually enabled sub-checks, multiple-clocks first. -/
def CheckTiming.checkRegClks (s : CheckTiming) (c : Circuit)
    (reg_multiple_clks reg_no_clks : Bool) : CheckTiming :=
  let s :=
    if reg_multiple_clks then
      s.pushGroup (mkPinErrors regMultipleClksMsg
        ((regMultipleClksViolations c).map (fun r => r.clkPin)))
    else s
  if reg_no_clks then
    s.pushGroup (mkPinErrors regNoClksMsg
      ((regNoClksViolations c).map (fun r => r.clkPin)))
  else s

/-- Modelled from the spec: `CheckTiming::checkUnconstrainedEndpoints`
pushes the unconstrained-endpoints error group. -/
def CheckTiming.checkUnconstrainedEndpoints (s : CheckTiming) (c : Circuit) :
    CheckTiming :=
  s.pushGroup (mkPinErrors unconstrainedMsg (unconstrainedEndpoints c))

/-- Modelled from the spec: `CheckTiming::checkLoops` pushes one error per
distinct combinational cycle. -/
def CheckTiming.checkLoops (s : CheckTiming) (c : Circuit) : CheckTiming :=
  { errors_ := s.errors_ ++ loopErrors c }

/-- Modelled from the spec: `CheckTiming::checkGeneratedClocks` pushes the
generated-clocks error group. -/
def CheckTiming.checkGeneratedClocks (s : CheckTiming) (c : Circuit) :
    CheckTiming :=
  s.pushGroup (mkClkErrors genClksMsg (genClkViolations c))

/-- Modelled from the spec (4.1): `CheckTiming::check` clears the error
state, then runs each selected check in the fixed category order, and
returns the verifier holding the repopulated error sequence. -/
def CheckTiming.check (s : CheckTiming) (c : Circuit) (t : Toggles) :
    CheckTiming :=
  let s := s.clear
  let s := if t.no_input_delay then s.checkNoInputDelay c else s
  let s := if t.no_output_delay then s.checkNoOutputDelay c else s
  let s :=
    if t.reg_multiple_clks ∨ t.reg_no_clks then
      s.checkRegClks c t.reg_multiple_clks t.reg_no_clks
    else s
  let s :=
    if t.unconstrained_endpoints then s.checkUnconstrainedEndpoints c else s
  let s := if t.loops then s.checkLoops c else s
  if t.generated_clks then s.checkGeneratedClocks c else s

/-- The error groups the specification promises for a selection of checks:
the concatenation, in the fixed category order, of the groups of exactly
the checks whose toggles are true. -/
def selectedGroups (c : Circuit) (t : Toggles) : CheckErrorSeq :=
  (if t.no_input_delay then
    (mkPinErrors noInputDelayMsg (inputDelayViolations c)).toList
  else []) ++
  (if t.no_output_delay then
    (mkPinErrors noOutputDelayMsg (outputDelayViolations c)).toList
  else []) ++
  (if t.reg_multiple_clks then
    (mkPinErrors regMultipleClksMsg
      ((regMultipleClksViolations c).map (fun r => r.clkPin))).toList
  else []) ++
  (if t.reg_no_clks then
    (mkPinErrors regNoClksMsg
      ((regNoClksViolations c).map (fun r => r.clkPin))).toList
  else []) ++
  (if t.unconstrained_endpoints then
    (mkPinErrors unconstrainedMsg (unconstrainedEndpoints c)).toList
  else []) ++
  (if t.loops then loopErrors c else []) ++
  (if t.generated_clks then (mkClkErrors genClksMsg (genClkViolations c)).toList
  else [])

/-! ## Helper lemmas -/

/-- The accumulated error sequence after a run of `check` is exactly the
concatenation of the selected checks' groups in the fixed category order,
for any prior verifier state. -/
lemma check_run_eq_selectedGroups (s : CheckTiming) (c : Circuit)
    (t : Toggles) : (s.check c t).errors_ = selectedGroups c t := by
  rcases t with ⟨a, b, m, n, u, l, g⟩
  cases a <;> cases b <;> cases m <;> cases n <;> cases u <;> cases l <;>
    cases g <;>
    simp [CheckTiming.check, CheckTiming.clear, CheckTiming.pushGroup,
      CheckTiming.checkNoInputDelay, CheckTiming.checkNoOutputDelay,
      CheckTiming.checkRegClks, CheckTiming.checkUnconstrainedEndpoints,
      CheckTiming.checkLoops, CheckTiming.checkGeneratedClocks,
      selectedGroups]

/-! ## Theorems for the leakage-power holder -/

/-- C8: constructing a `LeakagePower` from a cell and an attribute record
registers the new record with its owning cell exactly once (the cell's
sequence is extended by exactly that record, so its multiplicity grows by
one); destruction releases the guard expression's owned sub-expression
tree when a guard is present (the released list is the guard's node list
and contains the guard itself) and releases nothing when the guard is
absent. -/
theorem leakagePower_registers_once_and_releases_guard
    (cell : LibertyCell) (attrs : LeakagePowerAttrs) :
    ((LeakagePower.construct cell attrs).2).leakage_powers_ =
        cell.leakage_powers_ ++ [(LeakagePower.construct cell attrs).1] ∧
    ((LeakagePower.construct cell attrs).2).leakage_powers_.count
        (LeakagePower.construct cell attrs).1 =
      cell.leakage_powers_.count (LeakagePower.construct cell attrs).1 + 1 ∧
    ((LeakagePower.construct cell attrs).1.when_ = none →
      (LeakagePower.construct cell attrs).1.destruct = []) ∧
    (∀ w, (LeakagePower.construct cell attrs).1.when_ = some w →
      (LeakagePower.construct cell attrs).1.destruct = w.deleteSubexprs ∧
        w ∈ w.deleteSubexprs) := by
  refine ⟨rfl, ?_, ?_, ?_⟩
  · simp [LeakagePower.construct, LibertyCell.addLeakagePower]
  · intro h
    simp [LeakagePower.destruct, LeakagePower.construct] at h ⊢
    simp [h]
  · intro w h
    simp [LeakagePower.destruct, LeakagePower.construct] at h ⊢
    refine ⟨by simp [h], ?_⟩
    cases w <;> simp [FuncExpr.deleteSubexprs]

/-- Witness for C8 at a concrete cell and attribute record with a present
guard, and one with an absent guard. -/
theorem leakagePower_registers_once_and_releases_guard_witness :
    (LeakagePower.construct ⟨0, []⟩
        { when_ := some (.port 5), power_ := 2 }).1.destruct =
      (FuncExpr.port 5).deleteSubexprs ∧
    (LeakagePower.construct ⟨0, []⟩
        { when_ := none, power_ := 2 }).1.destruct = [] :=
  ⟨(leakagePower_registers_once_and_releases_guard ⟨0, []⟩
      { when_ := some (.port 5), power_ := 2 }).2.2.2 (.port 5) rfl |>.1,
   (leakagePower_registers_once_and_releases_guard ⟨0, []⟩
      { when_ := none, power_ := 2 }).2.2.1 rfl⟩

/-- C9: a default-constructed attribute record holds a null guard and power
0.0, and a `LeakagePower` constructed from an attribute record holds
exactly the guard and power stored in the record. -/
theorem leakagePowerAttrs_default_and_construct_copies :
    LeakagePowerAttrs.init.when_ = none ∧
    LeakagePowerAttrs.init.power_ = 0 ∧
    ∀ (cell : LibertyCell) (attrs : LeakagePowerAttrs),
      (LeakagePower.construct cell attrs).1.when_ = attrs.when_ ∧
      (LeakagePower.construct cell attrs).1.power_ = attrs.power_ :=
  ⟨rfl, rfl, fun _ _ => ⟨rfl, rfl⟩⟩

/-- C10: `setWhen` changes only the guard field and `setPower` only the
power field; neither releases any expression — in particular `setWhen`
overwrites the stored guard without releasing the old one. -/
theorem leakagePowerAttrs_setters_frame (a : LeakagePowerAttrs)
    (w : Option FuncExpr) (p : Rat) :
    (a.setWhen w).1.when_ = w ∧
    (a.setWhen w).1.power_ = a.power_ ∧
    (a.setWhen w).2 = [] ∧
    (a.setPower p).1.power_ = p ∧
    (a.setPower p).1.when_ = a.when_ ∧
    (a.setPower p).2 = [] :=
  ⟨rfl, rfl, rfl, rfl, rfl, rfl⟩

/-! ## Theorems for the top-level check -/

/-- C1: a run of `check` first clears the verifier's error list — the
result does not depend on the prior state — and repopulates it with only
the groups of the checks selected by true toggles, in the fixed category
order; a check whose toggle is false contributes nothing. -/
theorem checkTiming_check_clears_and_runs_selected (s s' : CheckTiming)
    (c : Circuit) (t : Toggles) :
    (s.check c t).errors_ = selectedGroups c t ∧ s.check c t = s'.check c t := by
  refine ⟨check_run_eq_selectedGroups s c t, ?_⟩
  cases h : s.check c t
  cases h' : s'.check c t
  have e1 := check_run_eq_selectedGroups s c t
  have e2 := check_run_eq_selectedGroups s' c t
  rw [h] at e1
  rw [h'] at e2
  simp only at e1 e2
  simp [e1, e2]

/-- The scenario circuit of the specification: pin 0 an unconstrained
primary input driving pin 3, pin 1 a constrained input, a register with
clock pin 2 (reached by the two clocks 10 and 11) and data pin 3, a
combinational loop 4 → 5 → 6 → 4, and a constrained primary output 7. -/
def scenarioCircuit : Circuit :=
  { pins := [0, 1, 2, 3, 4, 5, 6, 7],
    inputs := [0, 1],
    outputs := [7],
    regs := [⟨2, 3⟩],
    edges := [⟨0, 3, false⟩, ⟨4, 5, false⟩, ⟨5, 6, false⟩, ⟨6, 4, false⟩,
      ⟨6, 7, false⟩],
    inputDelays := [1],
    outputDelays := [7],
    clkArrivals := [(2, 10), (2, 11)],
    clockSrcs := [],
    defaultClkArrivals := [],
    clkRequireds := [3, 7],
    maxDelayPins := [],
    genClks := [] }

/-- All seven toggles true. -/
def allOn : Toggles :=
  ⟨true, true, true, true, true, true, true⟩

/-- Only the loop check selected. -/
def onlyLoops : Toggles :=
  ⟨false, false, false, false, false, true, false⟩

/-- A circuit with two disjoint combinational loops, 0 → 1 → 0 and
2 → 3 → 2. -/
def twoLoopsCircuit : Circuit :=
  { pins := [0, 1, 2, 3],
    inputs := [],
    outputs := [],
    regs := [],
    edges := [⟨0, 1, false⟩, ⟨1, 0, false⟩, ⟨2, 3, false⟩, ⟨3, 2, false⟩],
    inputDelays := [],
    outputDelays := [],
    clkArrivals := [],
    clockSrcs := [],
    defaultClkArrivals := [],
    clkRequireds := [],
    maxDelayPins := [],
    genClks := [] }

/-- Counterexample to the one-entry-per-selected-check reading: on
`twoLoopsCircuit`, with only the loop check selected, the single selected
check contributes two entries — one per distinct cycle — so the returned
sequence does not hold exactly one entry per selected check that reported
a violation. -/
theorem checkTiming_one_entry_per_check_counterexample :
    (CheckTiming.check ⟨[]⟩ twoLoopsCircuit onlyLoops).errors_ =
        [mkLoopError [0, 1], mkLoopError [2, 3]] ∧
    (CheckTiming.check ⟨[]⟩ twoLoopsCircuit onlyLoops).errors_.length = 2 := by
  constructor <;> decide

/-- C2 (amended): the returned sequence holds, in the fixed check-category
order, exactly one entry per selected pin-listing check that reported at
least one violation, while the selected loop check contributes one entry
per distinct cycle found; on the scenario circuit, running `check` with
all seven toggles true yields exactly three error groups — the
missing-input-delay group, the register-multiple-clocks group and the
combinational-loop report — in that fixed category order, and running it
with only `loops` true yields exactly the loop group. -/
theorem checkTiming_scenario_fixed_order_groups :
    (CheckTiming.check ⟨[]⟩ scenarioCircuit allOn).errors_ =
        (mkPinErrors noInputDelayMsg
            (inputDelayViolations scenarioCircuit)).toList ++
          (mkPinErrors regMultipleClksMsg
            ((regMultipleClksViolations scenarioCircuit).map
              (fun r => r.clkPin))).toList ++
          loopErrors scenarioCircuit ∧
    (CheckTiming.check ⟨[]⟩ scenarioCircuit allOn).errors_.length = 3 ∧
    (mkPinErrors noInputDelayMsg
        (inputDelayViolations scenarioCircuit)).toList.length = 1 ∧
    (mkPinErrors regMultipleClksMsg
        ((regMultipleClksViolations scenarioCircuit).map
          (fun r => r.clkPin))).toList.length = 1 ∧
    (loopErrors scenarioCircuit).length = 1 ∧
    (CheckTiming.check ⟨[]⟩ scenarioCircuit onlyLoops).errors_ =
      loopErrors scenarioCircuit ∧
    (∀ (m : MsgTemplate) (ps : List Nat),
      (mkPinErrors m ps).toList.length = if ps = [] then 0 else 1) ∧
    ∀ c : Circuit,
      (loopErrors c).length = (checkLoopsReport c c.pins).length := by
  refine ⟨by decide, by decide, by decide, by decide, by decide, by decide,
    ?_, ?_⟩
  · intro m ps
    by_cases h : ps = [] <;> simp [mkPinErrors, h]
  · intro c
    simp [loopErrors]

/-- C3: the two register-clock sub-groups are mutually exclusive — a
register whose clock pin is reached by exactly one declared clock appears
in neither group, one with zero reaching clocks appears only in the
no-clocks group, and one with two or more distinct reaching clocks appears
only in the multiple-clocks group. -/
theorem regClks_subgroups_mutually_exclusive (c : Circuit) (r : Reg) :
    ((clksReaching c r.clkPin).length = 1 →
      r ∉ regMultipleClksViolations c ∧ r ∉ regNoClksViolations c) ∧
    (r ∈ c.regs → (clksReaching c r.clkPin).length = 0 →
      r ∈ regNoClksViolations c ∧ r ∉ regMultipleClksViolations c) ∧
    (r ∈ c.regs → 2 ≤ (clksReaching c r.clkPin).length →
      r ∈ regMultipleClksViolations c ∧ r ∉ regNoClksViolations c) := by
  simp only [regMultipleClksViolations, regNoClksViolations, List.mem_filter,
    decide_eq_true_iff]
  refine ⟨fun h1 => ⟨fun h => ?_, fun h => ?_⟩,
    fun hr h0 => ⟨⟨hr, h0⟩, fun h => ?_⟩,
    fun hr h2 => ⟨⟨hr, h2⟩, fun h => ?_⟩⟩ <;> omega

/-- A three-register circuit for the witness of C3: register ⟨2, 3⟩ has one
reaching clock, ⟨4, 5⟩ has none, ⟨6, 7⟩ has two. -/
def regClksDemo : Circuit :=
  { pins := [2, 3, 4, 5, 6, 7],
    inputs := [],
    outputs := [],
    regs := [⟨2, 3⟩, ⟨4, 5⟩, ⟨6, 7⟩],
    edges := [],
    inputDelays := [],
    outputDelays := [],
    clkArrivals := [(2, 10), (6, 10), (6, 11)],
    clockSrcs := [],
    defaultClkArrivals := [],
    clkRequireds := [],
    maxDelayPins := [],
    genClks := [] }

/-- Witness for C3: each of the three branches exercised on `regClksDemo`. -/
theorem regClks_subgroups_mutually_exclusive_witness :
    ((⟨2, 3⟩ : Reg) ∉ regMultipleClksViolations regClksDemo ∧
      (⟨2, 3⟩ : Reg) ∉ regNoClksViolations regClksDemo) ∧
    ((⟨4, 5⟩ : Reg) ∈ regNoClksViolations regClksDemo ∧
      (⟨4, 5⟩ : Reg) ∉ regMultipleClksViolations regClksDemo) ∧
    ((⟨6, 7⟩ : Reg) ∈ regMultipleClksViolations regClksDemo ∧
      (⟨6, 7⟩ : Reg) ∉ regNoClksViolations regClksDemo) :=
  ⟨(regClks_subgroups_mutually_exclusive regClksDemo ⟨2, 3⟩).1 (by decide),
   (regClks_subgroups_mutually_exclusive regClksDemo ⟨4, 5⟩).2.1 (by decide)
     (by decide),
   (regClks_subgroups_mutually_exclusive regClksDemo ⟨6, 7⟩).2.2 (by decide)
     (by decide)⟩

/-- A circuit for the concrete part of C4: output 20 is flagged only by the
output-delay source, endpoint 22 only by the setup side, output 21 by
both. -/
def unconstrainedDemo : Circuit :=
  { pins := [10, 20, 21, 22, 30],
    inputs := [],
    outputs := [20, 21],
    regs := [⟨30, 22⟩],
    edges := [⟨10, 20, false⟩, ⟨10, 21, false⟩],
    inputDelays := [],
    outputDelays := [],
    clkArrivals := [],
    clockSrcs := [],
    defaultClkArrivals := [],
    clkRequireds := [20],
    maxDelayPins := [],
    genClks := [] }

/-- C4: the unconstrained-endpoints listing is the duplicate-free union of
the setup-side flagged endpoints and the outputs flagged for missing
output delay — every pin appears at most once, and a pin is listed exactly
when one of the two sources flags it; on `unconstrainedDemo`, where pin 21
is flagged by both sources and pins 20 and 22 by one source each, the
listing has exactly three pins and lists pin 21 once. -/
theorem unconstrainedEndpoints_dedup_union :
    (∀ (c : Circuit),
      (unconstrainedEndpoints c).Nodup ∧
      ∀ p, p ∈ unconstrainedEndpoints c ↔
        p ∈ setupUnconstrained c ∨ p ∈ outputDelayViolations c) ∧
    21 ∈ setupUnconstrained unconstrainedDemo ∧
    21 ∈ outputDelayViolations unconstrainedDemo ∧
    20 ∉ setupUnconstrained unconstrainedDemo ∧
    22 ∉ outputDelayViolations unconstrainedDemo ∧
    (unconstrainedEndpoints unconstrainedDemo).length = 3 ∧
    (unconstrainedEndpoints unconstrainedDemo).count 21 = 1 := by
  refine ⟨fun c => ⟨List.nodup_dedup _, fun p => ?_⟩, ?_, ?_, ?_, ?_, ?_, ?_⟩
  · simp [unconstrainedEndpoints, List.mem_dedup, List.mem_append]
  · decide
  · decide
  · decide
  · decide
  · decide
  · decide

/-- Witness for C4: the doubly flagged pin 21 is listed, and the listing
has no duplicates, obtained from the general statement at
`unconstrainedDemo`. -/
theorem unconstrainedEndpoints_dedup_union_witness :
    21 ∈ unconstrainedEndpoints unconstrainedDemo ∧
    (unconstrainedEndpoints unconstrainedDemo).Nodup :=
  ⟨((unconstrainedEndpoints_dedup_union.1 unconstrainedDemo).2 21).mpr
     (Or.inl (by decide)),
   (unconstrainedEndpoints_dedup_union.1 unconstrainedDemo).1⟩

/-- C6: error message formatting is a pure function of template and count —
a count of one renders the singular phrasing, a count of two or more the
plural phrasing — and a count of zero never produces an error group at
all: a check whose offending set is empty contributes no entry, and a
nonempty offending set always yields a group. -/
theorem errorMsg_singular_plural_and_empty_no_group :
    (∀ t : MsgTemplate, errorMsgSubst t 1 = toString 1 ++ " " ++ t.singular) ∧
    (∀ (t : MsgTemplate) (n : Nat), 2 ≤ n →
      errorMsgSubst t n = toString n ++ " " ++ t.plural) ∧
    (∀ t : MsgTemplate, mkPinErrors t [] = none) ∧
    (∀ (t : MsgTemplate) (pins : List Nat), pins ≠ [] →
      mkPinErrors t pins =
        some (errorMsgSubst t pins.length :: pins.map pinName)) := by
  refine ⟨fun t => by simp [errorMsgSubst], fun t n hn => ?_,
    fun t => by simp [mkPinErrors], fun t pins hp => ?_⟩
  · have : ¬ n = 1 := by omega
    simp [errorMsgSubst, this]
  · simp [mkPinErrors, hp]

/-- Witness for C6 at count two and a concrete nonempty pin set. -/
theorem errorMsg_singular_plural_and_empty_no_group_witness :
    errorMsgSubst ⟨"pin", "pins"⟩ 2 = toString 2 ++ " " ++ "pins" ∧
    mkPinErrors ⟨"pin", "pins"⟩ [4, 7] =
      some (errorMsgSubst ⟨"pin", "pins"⟩ 2 :: ["4", "7"]) :=
  ⟨errorMsg_singular_plural_and_empty_no_group.2.1 ⟨"pin", "pins"⟩ 2
     (by decide),
   errorMsg_singular_plural_and_empty_no_group.2.2.2 ⟨"pin", "pins"⟩ [4, 7]
     (by decide)⟩

/-- C7: when every primary input port carries an explicit input-delay
assertion the input-delay check flags nothing and produces no error group;
an uncovered primary input is flagged exactly when it has a downstream
timing receiver, is not itself a clock source, and carries no
default-propagated clocked arrival tag. -/
theorem inputDelay_check_covered_inputs_clean (c : Circuit) :
    ((∀ p ∈ c.inputs, p ∈ c.inputDelays) →
      inputDelayViolations c = [] ∧
      mkPinErrors noInputDelayMsg (inputDelayViolations c) = none) ∧
    ∀ p, p ∈ c.inputs → p ∉ c.inputDelays →
      (p ∈ inputDelayViolations c ↔
        hasReceivers c p = true ∧ p ∉ c.clockSrcs ∧
          p ∉ c.defaultClkArrivals) := by
  constructor
  · intro hcov
    have hnil : inputDelayViolations c = [] := by
      simp only [inputDelayViolations, List.filter_eq_nil_iff,
        decide_eq_true_iff]
      intro p hp
      simp only [not_and]
      intro hnd
      exact absurd (hcov p hp) hnd
    exact ⟨hnil, by simp [hnil, mkPinErrors]⟩
  · intro p hp hnd
    simp [inputDelayViolations, List.mem_filter, decide_eq_true_iff, hp, hnd]

/-- Witness for C7: on the scenario circuit restricted to its covered
input, the check is clean; and the uncovered input 0 of the scenario
circuit is flagged. -/
theorem inputDelay_check_covered_inputs_clean_witness :
    (inputDelayViolations regClksDemo = [] ∧
      mkPinErrors noInputDelayMsg (inputDelayViolations regClksDemo) =
        none) ∧
    (0 ∈ inputDelayViolations scenarioCircuit ↔
      hasReceivers scenarioCircuit 0 = true ∧ 0 ∉ scenarioCircuit.clockSrcs ∧
        0 ∉ scenarioCircuit.defaultClkArrivals) :=
  ⟨(inputDelay_check_covered_inputs_clean regClksDemo).1 (by decide),
   (inputDelay_check_covered_inputs_clean scenarioCircuit).2 0 (by decide)
     (by decide)⟩

/-! ## Loop-check lemmas -/

/-- Every cycle produced by the depth-first enumeration rooted at `v0` is
canonical: it starts at `v0`, repeats no pin, and every other pin on it is
strictly larger than `v0`. -/
lemma cyclePaths_shape (c : Circuit) (v0 : Nat) :
    ∀ (fuel cur : Nat) (mid : List Nat), (mid ++ [v0]).Nodup →
      (∀ x ∈ mid, v0 < x) →
      ∀ cyc ∈ cyclePaths c v0 fuel cur (mid ++ [v0]),
        ∃ mid2, cyc = v0 :: mid2 ∧ cyc.Nodup ∧ ∀ x ∈ mid2, v0 < x := by
  intro fuel
  induction fuel with
  | zero =>
    intro cur mid _ _ cyc hcyc
    simp [cyclePaths] at hcyc
  | succ fuel ih =>
    intro cur mid hnd hgt cyc hcyc
    simp only [cyclePaths, List.mem_flatMap] at hcyc
    obtain ⟨w, _, hcyc⟩ := hcyc
    split_ifs at hcyc with hwv hskip
    · rw [List.mem_singleton] at hcyc
      subst hcyc
      refine ⟨mid.reverse, by simp, ?_, ?_⟩
      · rw [List.nodup_reverse]
        exact hnd
      · intro x hx
        exact hgt x (List.mem_reverse.mp hx)
    · exact absurd hcyc (List.not_mem_nil cyc)
    · push_neg at hskip
      obtain ⟨hlt, hmem⟩ := hskip
      have hnd2 : ((w :: mid) ++ [v0]).Nodup := by
        simp only [List.cons_append, List.nodup_cons]
        exact ⟨hmem, hnd⟩
      have hgt2 : ∀ x ∈ w :: mid, v0 < x := by
        intro x hx
        rcases List.mem_cons.mp hx with h | h
        · subst h; omega
        · exact hgt x h
      exact ih w (w :: mid) hnd2 hgt2 cyc hcyc

/-- Canonical shape of the representative cycles rooted at `v0`. -/
lemma cyclesMin_shape (c : Circuit) (v0 : Nat) :
    ∀ cyc ∈ cyclesMin c v0,
      ∃ mid, cyc = v0 :: mid ∧ cyc.Nodup ∧ ∀ x ∈ mid, v0 < x := by
  intro cyc hcyc
  exact cyclePaths_shape c v0 c.pins.length v0 [] (by simp) (by simp) cyc
    (by simpa [cyclesMin] using hcyc)

/-- The first element of a rotation of `a :: t` by an offset that is not a
multiple of the length lies in `t`. -/
lemma rotate_head_mem_tail {a : Nat} {t : List Nat} {n : Nat}
    (hz : n % (a :: t).length ≠ 0) {b : Nat} {s : List Nat}
    (h : (a :: t).rotate n = b :: s) : b ∈ t := by
  rw [← List.rotate_mod] at h
  set k := n % (a :: t).length with hk
  have hklt : k < (a :: t).length := Nat.mod_lt _ (by simp)
  rcases hkc : k with _ | j
  · exact absurd hkc hz
  · rw [hkc] at h hklt
    rw [List.rotate_eq_drop_append_take (by omega)] at h
    have hdrop : (a :: t).drop (j + 1) = t.drop j := rfl
    rw [hdrop] at h
    simp only [List.length_cons] at hklt
    have hjlt : j < t.length := by omega
    cases hd : t.drop j with
    | nil =>
      rw [hd] at h
      have hle := List.drop_eq_nil_iff.mp hd
      omega
    | cons c rest =>
      rw [hd, List.cons_append] at h
      injection h with hbc _
      subst hbc
      exact List.mem_of_mem_drop (hd ▸ List.mem_cons_self c rest)

/-- Two canonical cycle representatives that are rotations of each other
are equal: the strict minimum pins the rotation offset to zero. -/
lemma canonical_rotation_eq {l1 l2 : List Nat} {v0 w0 : Nat}
    {mid1 mid2 : List Nat}
    (h1 : l1 = v0 :: mid1) (hb1 : ∀ x ∈ mid1, v0 < x)
    (h2 : l2 = w0 :: mid2) (hb2 : ∀ x ∈ mid2, w0 < x)
    (hrot : ∃ n, l2 = l1.rotate n) : l1 = l2 := by
  subst h1
  subst h2
  obtain ⟨n, hn⟩ := hrot
  have hperm : (w0 :: mid2).Perm (v0 :: mid1) := by
    rw [hn]
    exact List.rotate_perm _ n
  have hle1 : ∀ x ∈ v0 :: mid1, v0 ≤ x := by
    intro x hx
    rcases List.mem_cons.mp hx with h | h
    · omega
    · exact le_of_lt (hb1 x h)
  have hle2 : ∀ x ∈ w0 :: mid2, w0 ≤ x := by
    intro x hx
    rcases List.mem_cons.mp hx with h | h
    · omega
    · exact le_of_lt (hb2 x h)
  have hv0w0 : v0 = w0 :=
    le_antisymm (hle1 w0 (hperm.mem_iff.mp (List.mem_cons_self _ _)))
      (hle2 v0 (hperm.mem_iff.mpr (List.mem_cons_self _ _)))
  by_cases hz : n % (v0 :: mid1).length = 0
  · rw [← List.rotate_mod, hz, List.rotate_zero] at hn
    exact hn.symm
  · exfalso
    have hw0mem : w0 ∈ mid1 := rotate_head_mem_tail hz hn.symm
    have := hb1 w0 hw0mem
    omega

/-- C5: the loop check reports exactly one representative per distinct
physical cycle — two reported cycles that are rotations of one another are
the same report — and the set of cycles reported is invariant under
permuting the vertex iteration order, the report for a fixed order being a
deterministic function of that order. -/
theorem checkLoops_unique_representative_and_order_invariant
    (c : Circuit) (o : List Nat) :
    (∀ c1 ∈ checkLoopsReport c o, ∀ c2 ∈ checkLoopsReport c o,
      (∃ n, c2 = c1.rotate n) → c1 = c2) ∧
    ∀ o2, o.Perm o2 →
      (checkLoopsReport c o).Perm (checkLoopsReport c o2) := by
  constructor
  · intro c1 hc1 c2 hc2 hrot
    simp only [checkLoopsReport, List.mem_flatMap] at hc1 hc2
    obtain ⟨v1, _, hc1⟩ := hc1
    obtain ⟨v2, _, hc2⟩ := hc2
    obtain ⟨m1, e1, _, b1⟩ := cyclesMin_shape c v1 c1 hc1
    obtain ⟨m2, e2, _, b2⟩ := cyclesMin_shape c v2 c2 hc2
    exact canonical_rotation_eq e1 b1 e2 b2 hrot
  · intro o2 hperm
    exact hperm.flatMap_right (cyclesMin c)

/-- A three-pin combinational cycle for the witness of C5. -/
def loopDemo : Circuit :=
  { pins := [0, 1, 2],
    inputs := [],
    outputs := [],
    regs := [],
    edges := [⟨0, 1, false⟩, ⟨1, 2, false⟩, ⟨2, 0, false⟩],
    inputDelays := [],
    outputDelays := [],
    clkArrivals := [],
    clockSrcs := [],
    defaultClkArrivals := [],
    clkRequireds := [],
    maxDelayPins := [],
    genClks := [] }

/-- Witness for C5: the reported cycle of `loopDemo` coincides with its
own full rotation, and reversing the iteration order permutes the
report. -/
theorem checkLoops_unique_representative_and_order_invariant_witness :
    ([0, 1, 2] : List Nat) = [0, 1, 2] ∧
    (checkLoopsReport loopDemo [0, 1, 2]).Perm
      (checkLoopsReport loopDemo [2, 1, 0]) :=
  ⟨(checkLoops_unique_representative_and_order_invariant loopDemo
      [0, 1, 2]).1 [0, 1, 2] (by decide) [0, 1, 2] (by decide)
      ⟨3, by decide⟩,
   (checkLoops_unique_representative_and_order_invariant loopDemo
      [0, 1, 2]).2 [2, 1, 0] (by decide)⟩

end Sta
